import Mathlib

/-!
Verification development for the dl09wk edge proxy (src/index.js).

The program rewrites a family of GitHub download paths into upstream
fetches and relays the response with a permissive CORS header.  This file
gives a shallow embedding of its routing and forwarding logic:

* paths are Lean `String`s (the host URL parser strips raw tab/newline
  characters and percent-encodes non-ASCII before `url.pathname` is read,
  so plain strings are adequate);
* the four JavaScript regular expressions are embedded as hand-rolled
  deterministic parsers over `List Char` that reproduce the regex
  semantics exactly, including the greedy-with-backtracking split of the
  `repo@tag` segment and the fact that `.` does not match line
  terminators while `[^\/]` does;
* the host `fetch` capability is an oracle `Net` indexed by the call
  number within one request, so the probe and the relay fetch of the
  release branch are independent events;
* a thrown (uncaught) network error is modelled by `Outcome.thrown`,
  while every synthetic or relayed response is `Outcome.resp`.
-/

/-- Configuration constant PREFIX_ACCESS from the source (the access
protection path segment). -/
def PREFIX_ACCESS : String := "/3lwqk"

/-- Configuration constant PREFIX_GH from the source (the GitHub routing
segment). -/
def PREFIX_GH : String := "/gh/"

/-- Result of one call to the host fetch capability: a resolved upstream
response (status, headers, body) or a thrown network-level error. -/
inductive FetchResult where
  | ok (status : Nat) (headers : List (String × String)) (body : String)
  | err
deriving DecidableEq, Repr

/-- The network oracle: the result of the k-th outbound fetch performed
while handling one inbound request, as a function of the fetched URL. -/
abbrev Net : Type := Nat → String → FetchResult

/-- An inbound HTTP request.  `pathname` is the already-parsed URL path
(`new URL(request.url).pathname` in the source); method, query string,
headers and body are carried so that independence from them can be
stated. -/
structure InReq where
  method : String
  pathname : String
  search : String
  headers : List (String × String)
  body : String

/-- An outbound request issued by the proxy.  The source always calls
`fetch(url)` with no init object, which is a GET carrying no
caller-supplied headers and no body. -/
structure OutReq where
  method : String
  url : String
  headers : List (String × String)
  body : String
deriving DecidableEq, Repr

/-- The outbound request produced by a bare `fetch(url)` call. -/
def mkGet (url : String) : OutReq := ⟨"GET", url, [], ""⟩

/-- A response as constructed by the code (synthetic or relayed). -/
structure Response where
  status : Nat
  headers : List (String × String)
  body : String
deriving DecidableEq, Repr

/-- Outcome of handling a request: a response delivered to the caller, or
an exception that propagated out of the handler unhandled. -/
inductive Outcome where
  | resp (r : Response)
  | thrown
deriving DecidableEq, Repr

/-- ASCII lowercasing of a header name, used to model the case
insensitivity of the Headers map. -/
def lowerName (s : String) : String := ⟨s.data.map Char.toLower⟩

/-- `Headers.set` on the case-insensitive header map: entries whose name
matches case-insensitively are replaced by the single new entry. -/
def headerSet (hs : List (String × String)) (k v : String) :
    List (String × String) :=
  hs.filter (fun p => !(lowerName p.1 == lowerName k)) ++ [(k, v)]

/-- Case-insensitive header lookup (`Headers.get`). -/
def hLookup (hs : List (String × String)) (k : String) : Option String :=
  (hs.find? (fun p => lowerName p.1 == lowerName k)).map (fun p => p.2)

/-- Maximal run of non-`/` characters (the regex class `[^\/]+`, which
also matches line terminators) together with the unconsumed rest. -/
def takeSeg : List Char → List Char × List Char
  | [] => ([], [])
  | c :: cs =>
    if c = '/' then ([], c :: cs)
    else
      let p := takeSeg cs
      (c :: p.1, p.2)

/-- Consume a literal character sequence, returning the rest. -/
def dropLit : List Char → List Char → Option (List Char)
  | [], s => some s
  | _ :: _, [] => none
  | c :: cs, d :: ds => if c = d then dropLit cs ds else none

/-- Greedy split of a slash-free segment at an `@`, as the backtracking
regex `([^\/]+)@([^\/]+)` performs it: the split point is the last `@`
that leaves a nonempty suffix; the prefix may be empty here and is
checked by the caller. -/
def splitLastAtAux : List Char → Option (List Char × List Char)
  | [] => none
  | c :: cs =>
    match splitLastAtAux cs with
    | some p => some (c :: p.1, p.2)
    | none => if c = '@' ∧ cs ≠ [] then some ([], cs) else none

/-- Whether a character is matched by the regex `.` (everything except
the ECMAScript line terminators). -/
def dotOk (c : Char) : Bool :=
  !(c == '\n' || c == '\r' || c == '\u2028' || c == '\u2029')

/-- The trailing capture `(.*)$`: succeeds only when the remainder
contains no line terminator. -/
def restCapture (s : List Char) : Option (List Char) :=
  if s.all dotOk then some s else none

/-- Parse the leading `\/gh\/([^\/]+)\/` of each routing regex: the
literal prefix, a nonempty slash-free owner segment and the following
slash. -/
def parseOwner (s : List Char) : Option (List Char × List Char) :=
  match dropLit "/gh/".data s with
  | none => none
  | some s1 =>
    let p := takeSeg s1
    if p.1 = [] then none
    else
      match dropLit ['/'] p.2 with
      | none => none
      | some s2 => some (p.1, s2)

/-- Parse the shared part `\/gh\/([^\/]+)\/([^\/]+)` of the four routing
regexes: owner, the second slash-free nonempty segment, and the rest
(which still begins with the slash following the second segment, when
there is one). -/
def parseTwo (s : List Char) : Option (List Char × List Char × List Char) :=
  match parseOwner s with
  | none => none
  | some q =>
    let p := takeSeg q.2
    if p.1 = [] then none else some (q.1, p.1, p.2)

/-- Parse the trailing `([^\/]+)\/(.*)$` of the release/blob/raw regexes:
a nonempty slash-free ref segment, a slash, and the file remainder. -/
def tailCapture (s : List Char) : Option (List Char × List Char) :=
  let p := takeSeg s
  if p.1 = [] then none
  else
    match dropLit ['/'] p.2 with
    | none => none
    | some rest =>
      match restCapture rest with
      | none => none
      | some f => some (p.1, f)

/-- The captures `[, user, repo, version, filePath]` of a successful
match. -/
structure GHMatch where
  user : String
  repo : String
  version : String
  filePath : String
deriving DecidableEq, Repr

/-- Embedding of
`path.match(/^\/gh\/([^\/]+)\/([^\/]+)\/releases\/download\/([^\/]+)\/(.*)$/)`. -/
def matchRelease (path : String) : Option GHMatch :=
  match parseTwo path.data with
  | none => none
  | some (u, r, rest) =>
    match dropLit "/releases/download/".data rest with
    | none => none
    | some rest2 =>
      match tailCapture rest2 with
      | none => none
      | some (t, f) => some ⟨⟨u⟩, ⟨r⟩, ⟨t⟩, ⟨f⟩⟩

/-- Embedding of
`path.match(/^\/gh\/([^\/]+)\/([^\/]+)@([^\/]+)\/(.*)$/)`. -/
def matchVersion (path : String) : Option GHMatch :=
  match parseTwo path.data with
  | none => none
  | some (u, seg, rest) =>
    match splitLastAtAux seg with
    | none => none
    | some (r, t) =>
      if r = [] then none
      else
        match dropLit ['/'] rest with
        | none => none
        | some rest2 =>
          match restCapture rest2 with
          | none => none
          | some f => some ⟨⟨u⟩, ⟨r⟩, ⟨t⟩, ⟨f⟩⟩

/-- Embedding of
`path.match(/^\/gh\/([^\/]+)\/([^\/]+)\/blob\/([^\/]+)\/(.*)$/)`. -/
def matchBlob (path : String) : Option GHMatch :=
  match parseTwo path.data with
  | none => none
  | some (u, r, rest) =>
    match dropLit "/blob/".data rest with
    | none => none
    | some rest2 =>
      match tailCapture rest2 with
      | none => none
      | some (t, f) => some ⟨⟨u⟩, ⟨r⟩, ⟨t⟩, ⟨f⟩⟩

/-- Embedding of
`path.match(/^\/gh\/([^\/]+)\/([^\/]+)\/raw\/([^\/]+)\/(.*)$/)`. -/
def matchRaw (path : String) : Option GHMatch :=
  match parseTwo path.data with
  | none => none
  | some (u, r, rest) =>
    match dropLit "/raw/".data rest with
    | none => none
    | some rest2 =>
      match tailCapture rest2 with
      | none => none
      | some (t, f) => some ⟨⟨u⟩, ⟨r⟩, ⟨t⟩, ⟨f⟩⟩

/-- Release branch template literal
`https://github.com/user/repo/releases/download/version/filePath`. -/
def releaseUrl (m : GHMatch) : String :=
  "https://github.com/" ++ m.user ++ "/" ++ m.repo ++
    "/releases/download/" ++ m.version ++ "/" ++ m.filePath

/-- Version branch template literal
`https://github.com/user/repo/raw/refs/tags/version/filePath`. -/
def tagUrl (m : GHMatch) : String :=
  "https://github.com/" ++ m.user ++ "/" ++ m.repo ++
    "/raw/refs/tags/" ++ m.version ++ "/" ++ m.filePath

/-- Blob and raw branch template literal
`https://raw.githubusercontent.com/user/repo/version/filePath`. -/
def rawContentUrl (m : GHMatch) : String :=
  "https://raw.githubusercontent.com/" ++ m.user ++ "/" ++ m.repo ++
    "/" ++ m.version ++ "/" ++ m.filePath

/-- Embedding of `isValidGitHubParameter`: nonempty and matched by
`/^[a-zA-Z0-9_.-]+$/`. -/
def isValidGitHubParameter (param : String) : Bool :=
  (param != "") &&
    param.data.all (fun c => c.isAlphanum || c == '_' || c == '.' || c == '-')

/-- Embedding of `fetchWithCors(url, request)`: one fetch of `url`; on
success the upstream status and body are relayed and the upstream headers
are copied with `access-control-allow-origin` overwritten to `*`; a
network error propagates out of this function (it has no try/catch).  The
`request` argument is received but never used, exactly as in the
source. -/
def fetchWithCors (net : Net) (k : Nat) (url : String) (_request : InReq) :
    Outcome × List OutReq :=
  match net k url with
  | FetchResult.err => (Outcome.thrown, [mkGet url])
  | FetchResult.ok st hs b =>
      (Outcome.resp ⟨st, headerSet hs "access-control-allow-origin" "*", b⟩,
        [mkGet url])

/-- The release-download branch of `handleGitHubRequest`: inside a
try/catch, probe `fetch(githubUrl)`; a non-ok probe status yields the
synthetic 404, an ok probe is followed by `fetchWithCors` on the same
URL, and any error thrown by either fetch is converted to the synthetic
500.  `response.ok` is status 200 through 299. -/
def handleRelease (net : Net) (m : GHMatch) (request : InReq) :
    Outcome × List OutReq :=
  let githubUrl := releaseUrl m
  match net 0 githubUrl with
  | FetchResult.err =>
      (Outcome.resp ⟨500, [], "Internal Server Error"⟩, [mkGet githubUrl])
  | FetchResult.ok st _ _ =>
    if 200 ≤ st ∧ st ≤ 299 then
      match fetchWithCors net 1 githubUrl request with
      | (Outcome.thrown, log) =>
          (Outcome.resp ⟨500, [], "Internal Server Error"⟩,
            mkGet githubUrl :: log)
      | (Outcome.resp r, log) => (Outcome.resp r, mkGet githubUrl :: log)
    else
      (Outcome.resp ⟨404, [], "File not found"⟩, [mkGet githubUrl])

/-- The usage-guide HTML returned by `generateUsageGuide()` (verbatim;
braces of the embedded CSS are written with character escapes). -/
def generateUsageGuide : String :=
  "\n        <!DOCTYPE html>\n        <html lang=\"en\">\n        <head>\n            <meta charset=\"UTF-8\">\n            <meta name=\"viewport\" content=\"width=device-width, initial-scale=1.0\">\n            <title>Usage Guide</title>\n            <style>\n                body \x7b\n                    font-family: Arial, sans-serif;\n                    margin: 20px;\n                    padding: 20px;\n                    background-color: #f4f4f4;\n                    color: #333;\n                \x7d\n                h1 \x7b\n                    color: #007bff;\n                \x7d\n                pre \x7b\n                    background-color: #eee;\n                    padding: 10px;\n                    border-radius: 5px;\n                \x7d\n                code \x7b\n                    font-family: monospace;\n                    background-color: #f9f9f9;\n                    padding: 2px 4px;\n                    border-radius: 4px;\n                \x7d\n            </style>\n        </head>\n        <body>\n            <h1>Usage Guide</h1>\n            <p>Use the following endpoints to access GitHub releases:</p>\n            <h2>GitHub Releases</h2>\n            <pre>\n<code>https://dl09.net/3lwqk/gh/user/repo@version/file</code>\n            </pre>\n            <p>Examples:</p>\n            <pre>\n<code>https://dl09.net/3lwqk/gh/containerd/containerd@v1.6.4/cri-containerd-cni-1.6.4-linux-amd64.tar.gz</code>\n            </pre>\n            <pre>\n<code>https://dl09.net/3lwqk/gh/jquery/jquery@3.6.4/dist/jquery.min.js</code>\n            </pre>\n            <pre>\n<code>https://dl09.net/3lwqk/gh/nginx/nginx@1.2.6/CHANGELOG</code>\n            </pre>\n            <h2>Notes</h2>\n            <ul>\n                <li>Make sure to use valid user, repo, and version names.</li>\n                <li>Only alphanumeric characters, dashes, and underscores are allowed.</li>\n                <li>For the latest version of a repository, omit the version part.</li>\n            </ul>\n        </body>\n        </html>\n    "

/-- Embedding of `handleGitHubRequest(path, request)`.  The source first
tests whether all four matches failed (returning the usage guide), then
dispatches on the first successful match in the order release, version,
blob, raw; the nested matches below implement exactly that first-match
dispatch.  The version, blob and raw branches call `fetchWithCors`
outside of any try/catch. -/
def handleGitHubRequest (net : Net) (path : String) (request : InReq) :
    Outcome × List OutReq :=
  match matchRelease path with
  | some m => handleRelease net m request
  | none =>
    match matchVersion path with
    | some m => fetchWithCors net 0 (tagUrl m) request
    | none =>
      match matchBlob path with
      | some m => fetchWithCors net 0 (rawContentUrl m) request
      | none =>
        match matchRaw path with
        | some m => fetchWithCors net 0 (rawContentUrl m) request
        | none =>
          (Outcome.resp ⟨400, [("Content-Type", "text/html")],
            generateUsageGuide⟩, [])

/-- Embedding of `handleRequest(request)`: the access-prefix gate, the
strip of the access prefix (`path.replace(PREFIX_ACCESS, '')` removes the
first occurrence, which under the preceding `startsWith` guard is the
leading prefix itself), and the `/gh/` routing gate. -/
def handleRequest (net : Net) (request : InReq) : Outcome × List OutReq :=
  let path := request.pathname
  if PREFIX_ACCESS.data.isPrefixOf path.data then
    let path2 : String := ⟨path.data.drop PREFIX_ACCESS.data.length⟩
    if PREFIX_GH.data.isPrefixOf path2.data then
      handleGitHubRequest net path2 request
    else
      (Outcome.resp ⟨404, [], "404 Not Found"⟩, [])
  else
    (Outcome.resp ⟨404, [], "404 Not Found"⟩, [])

/-! ### Basic facts about the embedded parsers -/

theorem dropLit_append (l r : List Char) : dropLit l (l ++ r) = some r := by
  induction l with
  | nil => rfl
  | cons c cs ih => simp [dropLit, ih]

theorem dropLit_eq_some : ∀ {l s r : List Char}, dropLit l s = some r → s = l ++ r := by
  intro l
  induction l with
  | nil =>
    intro s r h
    simp [dropLit] at h
    simp [h]
  | cons c cs ih =>
    intro s r h
    cases s with
    | nil => simp [dropLit] at h
    | cons d ds =>
      by_cases hc : c = d
      · subst hc
        simp only [dropLit, if_pos rfl] at h
        simp [ih h]
      · simp [dropLit, Ne.symm hc, hc] at h

theorem takeSeg_append_cons {a : List Char} (ha : '/' ∉ a) (rest : List Char) :
    takeSeg (a ++ '/' :: rest) = (a, '/' :: rest) := by
  induction a with
  | nil => simp [takeSeg]
  | cons c cs ih =>
    have hc : c ≠ '/' := fun h => ha (h ▸ List.mem_cons_self c cs)
    have hcs : '/' ∉ cs := fun h => ha (List.mem_cons_of_mem c h)
    simp [takeSeg, hc, ih hcs]

theorem splitLastAtAux_eq_none {t : List Char} (h : '@' ∉ t) :
    splitLastAtAux t = none := by
  induction t with
  | nil => rfl
  | cons c cs ih =>
    have hc : c ≠ '@' := fun hh => h (hh ▸ List.mem_cons_self c cs)
    have hcs : '@' ∉ cs := fun hh => h (List.mem_cons_of_mem c hh)
    simp [splitLastAtAux, ih hcs, hc]

theorem splitLastAtAux_append (r : List Char) {t : List Char}
    (h : '@' ∉ t) (ht : t ≠ []) :
    splitLastAtAux (r ++ '@' :: t) = some (r, t) := by
  induction r with
  | nil => simp [splitLastAtAux, splitLastAtAux_eq_none h, ht]
  | cons c cs ih => simp [splitLastAtAux, ih]

theorem parseOwner_shape {o : List Char} (ho : o ≠ []) (ho2 : '/' ∉ o)
    (rest : List Char) :
    parseOwner ("/gh/".data ++ (o ++ '/' :: rest)) = some (o, rest) := by
  simp [parseOwner, dropLit_append, takeSeg_append_cons ho2, ho, dropLit]

theorem parseTwo_shape {o r : List Char} (ho : o ≠ []) (ho2 : '/' ∉ o)
    (hr : r ≠ []) (hr2 : '/' ∉ r) (rest : List Char) :
    parseTwo ("/gh/".data ++ (o ++ '/' :: (r ++ '/' :: rest)))
      = some (o, r, '/' :: rest) := by
  unfold parseTwo
  rw [parseOwner_shape ho ho2]
  simp [takeSeg_append_cons hr2, hr]

theorem tailCapture_shape {t f : List Char} (ht : t ≠ []) (ht2 : '/' ∉ t)
    (hf : f.all dotOk = true) :
    tailCapture (t ++ '/' :: f) = some (t, f) := by
  simp [tailCapture, takeSeg_append_cons ht2, ht, dropLit, restCapture, hf]

/-! ### The four matchers on paths of the corresponding textual shape -/

theorem matchRelease_of_data {path : String} {o r t f : List Char}
    (hp : path.data = "/gh/".data ++
      (o ++ '/' :: (r ++ '/' :: ("releases/download/".data ++ (t ++ '/' :: f)))))
    (ho : o ≠ []) (ho2 : '/' ∉ o) (hr : r ≠ []) (hr2 : '/' ∉ r)
    (ht : t ≠ []) (ht2 : '/' ∉ t) (hf : f.all dotOk = true) :
    matchRelease path = some ⟨⟨o⟩, ⟨r⟩, ⟨t⟩, ⟨f⟩⟩ := by
  have h1 : ('/' :: ("releases/download/".data ++ (t ++ '/' :: f)) : List Char)
      = "/releases/download/".data ++ (t ++ '/' :: f) := rfl
  unfold matchRelease
  rw [hp, parseTwo_shape ho ho2 hr hr2]
  simp only [h1, dropLit_append, tailCapture_shape ht ht2 hf]

theorem matchVersion_of_data {path : String} {o r t f : List Char}
    (hp : path.data = "/gh/".data ++
      (o ++ '/' :: ((r ++ '@' :: t) ++ '/' :: f)))
    (ho : o ≠ []) (ho2 : '/' ∉ o) (hr : r ≠ []) (hr2 : '/' ∉ r)
    (ht : t ≠ []) (ht2 : '/' ∉ t) (hat : '@' ∉ t) (hf : f.all dotOk = true) :
    matchVersion path = some ⟨⟨o⟩, ⟨r⟩, ⟨t⟩, ⟨f⟩⟩ := by
  have hseg : (r ++ '@' :: t : List Char) ≠ [] := by
    cases r <;> simp
  have hseg2 : '/' ∉ (r ++ '@' :: t : List Char) := by
    intro hmem
    rcases List.mem_append.mp hmem with h | h
    · exact hr2 h
    · rcases List.mem_cons.mp h with h | h
      · exact absurd h (by decide)
      · exact ht2 h
  unfold matchVersion
  rw [hp, parseTwo_shape ho ho2 hseg hseg2]
  simp only [splitLastAtAux_append r hat ht, hr, dropLit, if_pos rfl,
    restCapture, hf, if_true]
  simp [hr]

theorem matchBlob_of_data {path : String} {o r t f : List Char}
    (hp : path.data = "/gh/".data ++
      (o ++ '/' :: (r ++ '/' :: ("blob/".data ++ (t ++ '/' :: f)))))
    (ho : o ≠ []) (ho2 : '/' ∉ o) (hr : r ≠ []) (hr2 : '/' ∉ r)
    (ht : t ≠ []) (ht2 : '/' ∉ t) (hf : f.all dotOk = true) :
    matchBlob path = some ⟨⟨o⟩, ⟨r⟩, ⟨t⟩, ⟨f⟩⟩ := by
  have h1 : ('/' :: ("blob/".data ++ (t ++ '/' :: f)) : List Char)
      = "/blob/".data ++ (t ++ '/' :: f) := rfl
  unfold matchBlob
  rw [hp, parseTwo_shape ho ho2 hr hr2]
  simp only [h1, dropLit_append, tailCapture_shape ht ht2 hf]

theorem matchRaw_of_data {path : String} {o r t f : List Char}
    (hp : path.data = "/gh/".data ++
      (o ++ '/' :: (r ++ '/' :: ("raw/".data ++ (t ++ '/' :: f)))))
    (ho : o ≠ []) (ho2 : '/' ∉ o) (hr : r ≠ []) (hr2 : '/' ∉ r)
    (ht : t ≠ []) (ht2 : '/' ∉ t) (hf : f.all dotOk = true) :
    matchRaw path = some ⟨⟨o⟩, ⟨r⟩, ⟨t⟩, ⟨f⟩⟩ := by
  have h1 : ('/' :: ("raw/".data ++ (t ++ '/' :: f)) : List Char)
      = "/raw/".data ++ (t ++ '/' :: f) := rfl
  unfold matchRaw
  rw [hp, parseTwo_shape ho ho2 hr hr2]
  simp only [h1, dropLit_append, tailCapture_shape ht ht2 hf]

theorem release_path_data (o r t f : String) :
    ("/gh/" ++ o ++ "/" ++ r ++ "/releases/download/" ++ t ++ "/" ++ f).data
      = "/gh/".data ++ (o.data ++ '/' :: (r.data ++ '/' ::
          ("releases/download/".data ++ (t.data ++ '/' :: f.data)))) := by
  have e1 : ("/" : String).data = ['/'] := rfl
  have e2 : ("/releases/download/" : String).data
      = '/' :: "releases/download/".data := rfl
  simp [String.data_append, e1, e2, List.append_assoc]

theorem version_path_data (o r t f : String) :
    ("/gh/" ++ o ++ "/" ++ r ++ "@" ++ t ++ "/" ++ f).data
      = "/gh/".data ++ (o.data ++ '/' ::
          ((r.data ++ '@' :: t.data) ++ '/' :: f.data)) := by
  have e1 : ("/" : String).data = ['/'] := rfl
  have e2 : ("@" : String).data = ['@'] := rfl
  simp [String.data_append, e1, e2, List.append_assoc]

theorem blob_path_data (o r t f : String) :
    ("/gh/" ++ o ++ "/" ++ r ++ "/blob/" ++ t ++ "/" ++ f).data
      = "/gh/".data ++ (o.data ++ '/' :: (r.data ++ '/' ::
          ("blob/".data ++ (t.data ++ '/' :: f.data)))) := by
  have e1 : ("/" : String).data = ['/'] := rfl
  have e2 : ("/blob/" : String).data = '/' :: "blob/".data := rfl
  simp [String.data_append, e1, e2, List.append_assoc]

theorem raw_path_data (o r t f : String) :
    ("/gh/" ++ o ++ "/" ++ r ++ "/raw/" ++ t ++ "/" ++ f).data
      = "/gh/".data ++ (o.data ++ '/' :: (r.data ++ '/' ::
          ("raw/".data ++ (t.data ++ '/' :: f.data)))) := by
  have e1 : ("/" : String).data = ['/'] := rfl
  have e2 : ("/raw/" : String).data = '/' :: "raw/".data := rfl
  simp [String.data_append, e1, e2, List.append_assoc]

/-! ### Disjointness of the release, blob and raw patterns -/

theorem dropLit_cons_cons {c : Char} {cs ds : List Char} :
    dropLit (c :: cs) (c :: ds) = dropLit cs ds := by
  simp [dropLit]

theorem dropLit_none_of_head_ne {c d : Char} {cs ds : List Char} (h : c ≠ d) :
    dropLit (c :: cs) (d :: ds) = none := by
  simp [dropLit, h]

theorem dropLit_blob_of_rel (x : List Char) :
    dropLit "/blob/".data ("/releases/download/".data ++ x) = none := by
  have e1 : ("/blob/" : String).data
      = '/' :: 'b' :: 'l' :: 'o' :: 'b' :: '/' :: [] := rfl
  have e2 : ("/releases/download/" : String).data ++ x
      = '/' :: 'r' :: ('e' :: 'l' :: 'e' :: 'a' :: 's' :: 'e' :: 's' :: '/' ::
          'd' :: 'o' :: 'w' :: 'n' :: 'l' :: 'o' :: 'a' :: 'd' :: '/' :: []) ++ x := rfl
  rw [e1, e2, List.cons_append, List.cons_append, dropLit_cons_cons]
  exact dropLit_none_of_head_ne (by decide)

theorem dropLit_raw_of_rel (x : List Char) :
    dropLit "/raw/".data ("/releases/download/".data ++ x) = none := by
  have e1 : ("/raw/" : String).data = '/' :: 'r' :: 'a' :: 'w' :: '/' :: [] := rfl
  have e2 : ("/releases/download/" : String).data ++ x
      = '/' :: 'r' :: 'e' :: ('l' :: 'e' :: 'a' :: 's' :: 'e' :: 's' :: '/' ::
          'd' :: 'o' :: 'w' :: 'n' :: 'l' :: 'o' :: 'a' :: 'd' :: '/' :: []) ++ x := rfl
  rw [e1, e2, List.cons_append, List.cons_append, List.cons_append,
    dropLit_cons_cons, dropLit_cons_cons]
  exact dropLit_none_of_head_ne (by decide)

theorem dropLit_raw_of_blob (x : List Char) :
    dropLit "/raw/".data ("/blob/".data ++ x) = none := by
  have e1 : ("/raw/" : String).data = '/' :: 'r' :: 'a' :: 'w' :: '/' :: [] := rfl
  have e2 : ("/blob/" : String).data ++ x
      = '/' :: 'b' :: ('l' :: 'o' :: 'b' :: '/' :: []) ++ x := rfl
  rw [e1, e2, List.cons_append, dropLit_cons_cons]
  exact dropLit_none_of_head_ne (by decide)

theorem matchRelease_parseTwo {path : String} {m : GHMatch}
    (h : matchRelease path = some m) :
    ∃ u r rest x, parseTwo path.data = some (u, r, rest) ∧
      dropLit "/releases/download/".data rest = some x := by
  cases hp : parseTwo path.data with
  | none => rw [matchRelease, hp] at h; cases h
  | some q =>
    obtain ⟨u, r, rest⟩ := q
    cases hd : dropLit "/releases/download/".data rest with
    | none => rw [matchRelease, hp] at h; simp [hd] at h
    | some rest2 => exact ⟨u, r, rest, rest2, rfl, hd⟩

theorem matchBlob_parseTwo {path : String} {m : GHMatch}
    (h : matchBlob path = some m) :
    ∃ u r rest x, parseTwo path.data = some (u, r, rest) ∧
      dropLit "/blob/".data rest = some x := by
  cases hp : parseTwo path.data with
  | none => rw [matchBlob, hp] at h; cases h
  | some q =>
    obtain ⟨u, r, rest⟩ := q
    cases hd : dropLit "/blob/".data rest with
    | none => rw [matchBlob, hp] at h; simp [hd] at h
    | some rest2 => exact ⟨u, r, rest, rest2, rfl, hd⟩

theorem matchRaw_parseTwo {path : String} {m : GHMatch}
    (h : matchRaw path = some m) :
    ∃ u r rest x, parseTwo path.data = some (u, r, rest) ∧
      dropLit "/raw/".data rest = some x := by
  cases hp : parseTwo path.data with
  | none => rw [matchRaw, hp] at h; cases h
  | some q =>
    obtain ⟨u, r, rest⟩ := q
    cases hd : dropLit "/raw/".data rest with
    | none => rw [matchRaw, hp] at h; simp [hd] at h
    | some rest2 => exact ⟨u, r, rest, rest2, rfl, hd⟩

theorem matchBlob_none_of_release {path : String} {m : GHMatch}
    (h : matchRelease path = some m) : matchBlob path = none := by
  obtain ⟨u, r, rest, x, hp, hd⟩ := matchRelease_parseTwo h
  rw [matchBlob, hp]
  simp [dropLit_eq_some hd, dropLit]

theorem matchRaw_none_of_release {path : String} {m : GHMatch}
    (h : matchRelease path = some m) : matchRaw path = none := by
  obtain ⟨u, r, rest, x, hp, hd⟩ := matchRelease_parseTwo h
  rw [matchRaw, hp]
  simp [dropLit_eq_some hd, dropLit]

theorem matchRaw_none_of_blob {path : String} {m : GHMatch}
    (h : matchBlob path = some m) : matchRaw path = none := by
  obtain ⟨u, r, rest, x, hp, hd⟩ := matchBlob_parseTwo h
  rw [matchRaw, hp]
  simp [dropLit_eq_some hd, dropLit]

/-! ### Branch behavior of the forwarder and the dispatcher -/

theorem fetchWithCors_err {net : Net} {k : Nat} {url : String}
    (req : InReq) (h : net k url = FetchResult.err) :
    fetchWithCors net k url req = (Outcome.thrown, [mkGet url]) := by
  simp [fetchWithCors, h]

theorem fetchWithCors_ok {net : Net} {k : Nat} {url : String}
    {st : Nat} {hs : List (String × String)} {b : String}
    (req : InReq) (h : net k url = FetchResult.ok st hs b) :
    fetchWithCors net k url req
      = (Outcome.resp ⟨st, headerSet hs "access-control-allow-origin" "*", b⟩,
          [mkGet url]) := by
  simp [fetchWithCors, h]

theorem fetchWithCors_log (net : Net) (k : Nat) (url : String) (req : InReq) :
    (fetchWithCors net k url req).2 = [mkGet url] := by
  cases h : net k url <;> simp [fetchWithCors, h]

theorem fetchWithCors_req_irrel (net : Net) (k : Nat) (url : String)
    (r1 r2 : InReq) : fetchWithCors net k url r1 = fetchWithCors net k url r2 := rfl

theorem handleGH_release {path : String} {m : GHMatch}
    (net : Net) (req : InReq) (h : matchRelease path = some m) :
    handleGitHubRequest net path req = handleRelease net m req := by
  simp [handleGitHubRequest, h]

theorem handleGH_version {path : String} {m : GHMatch}
    (net : Net) (req : InReq) (h0 : matchRelease path = none)
    (h1 : matchVersion path = some m) :
    handleGitHubRequest net path req = fetchWithCors net 0 (tagUrl m) req := by
  simp [handleGitHubRequest, h0, h1]

theorem handleGH_blob {path : String} {m : GHMatch}
    (net : Net) (req : InReq) (h0 : matchRelease path = none)
    (h1 : matchVersion path = none) (h2 : matchBlob path = some m) :
    handleGitHubRequest net path req
      = fetchWithCors net 0 (rawContentUrl m) req := by
  simp [handleGitHubRequest, h0, h1, h2]

theorem handleGH_raw {path : String} {m : GHMatch}
    (net : Net) (req : InReq) (h0 : matchRelease path = none)
    (h1 : matchVersion path = none) (h2 : matchBlob path = none)
    (h3 : matchRaw path = some m) :
    handleGitHubRequest net path req
      = fetchWithCors net 0 (rawContentUrl m) req := by
  simp [handleGitHubRequest, h0, h1, h2, h3]

theorem handleGH_unmatched {path : String}
    (net : Net) (req : InReq) (h0 : matchRelease path = none)
    (h1 : matchVersion path = none) (h2 : matchBlob path = none)
    (h3 : matchRaw path = none) :
    handleGitHubRequest net path req
      = (Outcome.resp ⟨400, [("Content-Type", "text/html")],
          generateUsageGuide⟩, []) := by
  simp [handleGitHubRequest, h0, h1, h2, h3]

theorem handleRelease_probe_err {net : Net} {m : GHMatch} (req : InReq)
    (h : net 0 (releaseUrl m) = FetchResult.err) :
    handleRelease net m req
      = (Outcome.resp ⟨500, [], "Internal Server Error"⟩,
          [mkGet (releaseUrl m)]) := by
  simp [handleRelease, h]

theorem handleRelease_probe_fail {net : Net} {m : GHMatch} (req : InReq)
    {st : Nat} {hs : List (String × String)} {b : String}
    (h : net 0 (releaseUrl m) = FetchResult.ok st hs b)
    (hst : ¬(200 ≤ st ∧ st ≤ 299)) :
    handleRelease net m req
      = (Outcome.resp ⟨404, [], "File not found"⟩, [mkGet (releaseUrl m)]) := by
  simp [handleRelease, h, hst]

theorem handleRelease_relay_ok {net : Net} {m : GHMatch} (req : InReq)
    {st : Nat} {hs : List (String × String)} {b : String}
    {st2 : Nat} {hs2 : List (String × String)} {b2 : String}
    (h : net 0 (releaseUrl m) = FetchResult.ok st hs b)
    (hst : 200 ≤ st ∧ st ≤ 299)
    (h2 : net 1 (releaseUrl m) = FetchResult.ok st2 hs2 b2) :
    handleRelease net m req
      = (Outcome.resp ⟨st2, headerSet hs2 "access-control-allow-origin" "*", b2⟩,
          [mkGet (releaseUrl m), mkGet (releaseUrl m)]) := by
  simp [handleRelease, h, hst, fetchWithCors, h2]

theorem handleRelease_relay_err {net : Net} {m : GHMatch} (req : InReq)
    {st : Nat} {hs : List (String × String)} {b : String}
    (h : net 0 (releaseUrl m) = FetchResult.ok st hs b)
    (hst : 200 ≤ st ∧ st ≤ 299)
    (h2 : net 1 (releaseUrl m) = FetchResult.err) :
    handleRelease net m req
      = (Outcome.resp ⟨500, [], "Internal Server Error"⟩,
          [mkGet (releaseUrl m), mkGet (releaseUrl m)]) := by
  simp [handleRelease, h, hst, fetchWithCors, h2]

theorem handleRelease_not_thrown (net : Net) (m : GHMatch) (req : InReq) :
    (handleRelease net m req).1 ≠ Outcome.thrown := by
  cases h0 : net 0 (releaseUrl m) with
  | err => simp [handleRelease_probe_err req h0]
  | ok st hs b =>
    by_cases hst : 200 ≤ st ∧ st ≤ 299
    · cases h1 : net 1 (releaseUrl m) with
      | err => simp [handleRelease_relay_err req h0 hst h1]
      | ok st2 hs2 b2 => simp [handleRelease_relay_ok req h0 hst h1]
    · simp [handleRelease_probe_fail req h0 hst]

/-! ### Header relay facts -/

theorem headerSet_cons_drop {p : String × String}
    {ps : List (String × String)} {k v : String}
    (h : lowerName p.1 = lowerName k) :
    headerSet (p :: ps) k v = headerSet ps k v := by
  simp [headerSet, h]

theorem headerSet_cons_keep {p : String × String}
    {ps : List (String × String)} {k v : String}
    (h : ¬lowerName p.1 = lowerName k) :
    headerSet (p :: ps) k v = p :: headerSet ps k v := by
  simp [headerSet, h]

theorem find?_headerSet_self (hs : List (String × String)) (k v : String) :
    List.find? (fun p => lowerName p.1 == lowerName k) (headerSet hs k v)
      = some (k, v) := by
  induction hs with
  | nil =>
    have : headerSet [] k v = [(k, v)] := rfl
    rw [this, List.find?_cons_of_pos _ (by simp)]
  | cons p ps ih =>
    by_cases hpk : lowerName p.1 = lowerName k
    · rw [headerSet_cons_drop hpk, ih]
    · rw [headerSet_cons_keep hpk, List.find?_cons_of_neg _ (by simp [hpk]), ih]

theorem hLookup_headerSet_self (hs : List (String × String)) (k v : String) :
    hLookup (headerSet hs k v) k = some v := by
  unfold hLookup
  rw [find?_headerSet_self]
  rfl

theorem find?_headerSet_other (hs : List (String × String))
    (k v name : String) (hne : lowerName name ≠ lowerName k) :
    List.find? (fun p => lowerName p.1 == lowerName name) (headerSet hs k v)
      = List.find? (fun p => lowerName p.1 == lowerName name) hs := by
  induction hs with
  | nil =>
    have : headerSet [] k v = [(k, v)] := rfl
    rw [this, List.find?_cons_of_neg _ (by simp [Ne.symm hne])]
  | cons p ps ih =>
    by_cases hpk : lowerName p.1 = lowerName k
    · rw [headerSet_cons_drop hpk, ih,
        List.find?_cons_of_neg _ (by simp [hpk, Ne.symm hne])]
    · rw [headerSet_cons_keep hpk]
      by_cases hpn : lowerName p.1 = lowerName name
      · rw [List.find?_cons_of_pos _ (by simp [hpn]),
          List.find?_cons_of_pos _ (by simp [hpn])]
      · rw [List.find?_cons_of_neg _ (by simp [hpn]),
          List.find?_cons_of_neg _ (by simp [hpn]), ih]

theorem hLookup_headerSet_other (hs : List (String × String))
    (k v name : String) (hne : lowerName name ≠ lowerName k) :
    hLookup (headerSet hs k v) name = hLookup hs name := by
  unfold hLookup
  rw [find?_headerSet_other hs k v name hne]

theorem mem_headerSet_of_ne {hs : List (String × String)}
    {p : String × String} (k v : String) (hmem : p ∈ hs)
    (hne : lowerName p.1 ≠ lowerName k) : p ∈ headerSet hs k v := by
  unfold headerSet
  exact List.mem_append_left _ (List.mem_filter.mpr ⟨hmem, by simp [hne]⟩)

/-! ### Gate behavior of the top-level handler -/

theorem handleRequest_no_access {net : Net} {req : InReq}
    (h : PREFIX_ACCESS.data.isPrefixOf req.pathname.data = false) :
    handleRequest net req = (Outcome.resp ⟨404, [], "404 Not Found"⟩, []) := by
  simp [handleRequest, h]

theorem handleRequest_stripped {net : Net} {req : InReq} {p2 : List Char}
    (h : req.pathname.data = PREFIX_ACCESS.data ++ p2) :
    handleRequest net req =
      if PREFIX_GH.data.isPrefixOf p2 then handleGitHubRequest net ⟨p2⟩ req
      else (Outcome.resp ⟨404, [], "404 Not Found"⟩, []) := by
  have hpre : PREFIX_ACCESS.data.isPrefixOf (PREFIX_ACCESS.data ++ p2) = true :=
    List.isPrefixOf_iff_prefix.mpr (List.prefix_append _ _)
  simp only [handleRequest, h, List.drop_left]
  rw [if_pos hpre]

/-! ### Every outbound request is a bare GET -/

theorem handleGitHubRequest_log (net : Net) (path : String) (req : InReq) :
    ∀ o ∈ (handleGitHubRequest net path req).2,
      o.method = "GET" ∧ o.headers = [] ∧ o.body = "" := by
  cases hR : matchRelease path with
  | some m =>
    rw [handleGH_release net req hR]
    cases h0 : net 0 (releaseUrl m) with
    | err => simp [handleRelease_probe_err req h0, mkGet]
    | ok st hs b =>
      by_cases hst : 200 ≤ st ∧ st ≤ 299
      · cases h1 : net 1 (releaseUrl m) with
        | err => simp [handleRelease_relay_err req h0 hst h1, mkGet]
        | ok st2 hs2 b2 => simp [handleRelease_relay_ok req h0 hst h1, mkGet]
      · simp [handleRelease_probe_fail req h0 hst, mkGet]
  | none =>
    cases hV : matchVersion path with
    | some m =>
      rw [handleGH_version net req hR hV]
      intro o ho
      rw [fetchWithCors_log] at ho
      simp [mkGet] at ho
      simp [ho]
    | none =>
      cases hB : matchBlob path with
      | some m =>
        rw [handleGH_blob net req hR hV hB]
        intro o ho
        rw [fetchWithCors_log] at ho
        simp [mkGet] at ho
        simp [ho]
      | none =>
        cases hW : matchRaw path with
        | some m =>
          rw [handleGH_raw net req hR hV hB hW]
          intro o ho
          rw [fetchWithCors_log] at ho
          simp [mkGet] at ho
          simp [ho]
        | none =>
          rw [handleGH_unmatched net req hR hV hB hW]
          simp

theorem handleRequest_log (net : Net) (req : InReq) :
    ∀ o ∈ (handleRequest net req).2,
      o.method = "GET" ∧ o.headers = [] ∧ o.body = "" := by
  by_cases h1 : PREFIX_ACCESS.data.isPrefixOf req.pathname.data = true
  · obtain ⟨p2, hp2⟩ := List.isPrefixOf_iff_prefix.mp h1
    rw [handleRequest_stripped hp2.symm]
    by_cases h2 : PREFIX_GH.data.isPrefixOf p2 = true
    · rw [if_pos h2]
      exact handleGitHubRequest_log net ⟨p2⟩ req
    · rw [if_neg h2]
      simp
  · rw [handleRequest_no_access (Bool.eq_false_iff.mpr h1)]
    simp

theorem handleGitHubRequest_req_irrel (net : Net) (path : String)
    (r1 r2 : InReq) :
    handleGitHubRequest net path r1 = handleGitHubRequest net path r2 := rfl

/-! ### Contrapositive forms of the disjointness facts -/

theorem matchRelease_none_of_blob {path : String} {m : GHMatch}
    (h : matchBlob path = some m) : matchRelease path = none := by
  cases hc : matchRelease path with
  | none => rfl
  | some m2 => rw [matchBlob_none_of_release hc] at h; cases h

theorem matchRelease_none_of_raw {path : String} {m : GHMatch}
    (h : matchRaw path = some m) : matchRelease path = none := by
  cases hc : matchRelease path with
  | none => rfl
  | some m2 => rw [matchRaw_none_of_release hc] at h; cases h

theorem matchBlob_none_of_raw {path : String} {m : GHMatch}
    (h : matchRaw path = some m) : matchBlob path = none := by
  cases hc : matchBlob path with
  | none => rfl
  | some m2 => rw [matchRaw_none_of_blob hc] at h; cases h

theorem matchVersion_none_of_no_at {path : String} {u r rest : List Char}
    (hp : parseTwo path.data = some (u, r, rest)) (h : '@' ∉ r) :
    matchVersion path = none := by
  rw [matchVersion, hp]
  simp [splitLastAtAux_eq_none h]

theorem parseTwo_blob_path (o r t f : String)
    (ho : o.data ≠ []) (ho2 : '/' ∉ o.data)
    (hr : r.data ≠ []) (hr2 : '/' ∉ r.data) :
    parseTwo ("/gh/" ++ o ++ "/" ++ r ++ "/blob/" ++ t ++ "/" ++ f).data
      = some (o.data, r.data,
          '/' :: ("blob/".data ++ (t.data ++ '/' :: f.data))) := by
  rw [blob_path_data]
  exact parseTwo_shape ho ho2 hr hr2 _

theorem parseTwo_raw_path (o r t f : String)
    (ho : o.data ≠ []) (ho2 : '/' ∉ o.data)
    (hr : r.data ≠ []) (hr2 : '/' ∉ r.data) :
    parseTwo ("/gh/" ++ o ++ "/" ++ r ++ "/raw/" ++ t ++ "/" ++ f).data
      = some (o.data, r.data,
          '/' :: ("raw/".data ++ (t.data ++ '/' :: f.data))) := by
  rw [raw_path_data]
  exact parseTwo_shape ho ho2 hr hr2 _

/-! ### Splitting a combined prefix test -/

theorem isPrefixOf_append_iff (A B s : List Char) :
    (A ++ B).isPrefixOf s = true ↔
      A.isPrefixOf s = true ∧ B.isPrefixOf (s.drop A.length) = true := by
  constructor
  · intro h
    have h' : ∃ tl, (A ++ B) ++ tl = s := List.isPrefixOf_iff_prefix.mp h
    obtain ⟨tl, htl⟩ := h'
    subst htl
    constructor
    · exact List.isPrefixOf_iff_prefix.mpr ⟨B ++ tl, by simp [List.append_assoc]⟩
    · have hd : ((A ++ B) ++ tl).drop A.length = B ++ tl := by
        rw [List.append_assoc, List.drop_left]
      rw [hd]
      exact List.isPrefixOf_iff_prefix.mpr ⟨tl, rfl⟩
  · rintro ⟨h1, h2⟩
    have h1' : ∃ t1, A ++ t1 = s := List.isPrefixOf_iff_prefix.mp h1
    obtain ⟨t1, ht1⟩ := h1'
    subst ht1
    rw [List.drop_left] at h2
    have h2' : ∃ t2, B ++ t2 = t1 := List.isPrefixOf_iff_prefix.mp h2
    obtain ⟨t2, ht2⟩ := h2'
    subst ht2
    exact List.isPrefixOf_iff_prefix.mpr ⟨t2, by simp [List.append_assoc]⟩

/-! ### The claims -/

/-- C3: for every path of the release-download shape
/gh/owner/repo/releases/download/tag/file, the upstream URL is
https://github.com/owner/repo/releases/download/tag/file; a probe fetch of
that URL is performed first; a probe status outside 200-299 yields the
synthetic 404 "File not found" with no relay fetch; a 2xx probe is
followed by a second fetch of the same URL whose response is relayed with
the CORS header. -/
theorem claim_C3 (net : Net) (req : InReq) (o r t f : String)
    (ho : o.data ≠ []) (ho2 : '/' ∉ o.data)
    (hr : r.data ≠ []) (hr2 : '/' ∉ r.data)
    (ht : t.data ≠ []) (ht2 : '/' ∉ t.data)
    (hf : f.data.all dotOk = true) :
    matchRelease ("/gh/" ++ o ++ "/" ++ r ++ "/releases/download/" ++ t ++ "/" ++ f)
        = some ⟨o, r, t, f⟩ ∧
    releaseUrl ⟨o, r, t, f⟩
        = "https://github.com/" ++ o ++ "/" ++ r ++ "/releases/download/"
            ++ t ++ "/" ++ f ∧
    (∀ st hs b, net 0 (releaseUrl ⟨o, r, t, f⟩) = FetchResult.ok st hs b →
      ¬(200 ≤ st ∧ st ≤ 299) →
      handleGitHubRequest net
          ("/gh/" ++ o ++ "/" ++ r ++ "/releases/download/" ++ t ++ "/" ++ f) req
        = (Outcome.resp ⟨404, [], "File not found"⟩,
            [mkGet (releaseUrl ⟨o, r, t, f⟩)])) ∧
    (∀ st hs b st2 hs2 b2,
      net 0 (releaseUrl ⟨o, r, t, f⟩) = FetchResult.ok st hs b →
      200 ≤ st ∧ st ≤ 299 →
      net 1 (releaseUrl ⟨o, r, t, f⟩) = FetchResult.ok st2 hs2 b2 →
      handleGitHubRequest net
          ("/gh/" ++ o ++ "/" ++ r ++ "/releases/download/" ++ t ++ "/" ++ f) req
        = (Outcome.resp
            ⟨st2, headerSet hs2 "access-control-allow-origin" "*", b2⟩,
            [mkGet (releaseUrl ⟨o, r, t, f⟩), mkGet (releaseUrl ⟨o, r, t, f⟩)])) := by
  have hm : matchRelease
      ("/gh/" ++ o ++ "/" ++ r ++ "/releases/download/" ++ t ++ "/" ++ f)
        = some ⟨o, r, t, f⟩ :=
    matchRelease_of_data (release_path_data o r t f) ho ho2 hr hr2 ht ht2 hf
  refine ⟨hm, rfl, ?_, ?_⟩
  · intro st hs b h hst
    rw [handleGH_release net req hm]
    exact handleRelease_probe_fail req h hst
  · intro st hs b st2 hs2 b2 h hst h2
    rw [handleGH_release net req hm]
    exact handleRelease_relay_ok req h hst h2

/-- C3 witness: the torvalds/linux example with a probe answering 404
ends in the synthetic 404 after exactly one outbound fetch. -/
theorem claim_C3_witness :
    handleGitHubRequest (fun _ _ => FetchResult.ok 404 [] "")
        "/gh/torvalds/linux/releases/download/v6.1/patch.gz"
        ⟨"GET", "/3lwqk/gh/torvalds/linux/releases/download/v6.1/patch.gz",
          "", [], ""⟩
      = (Outcome.resp ⟨404, [], "File not found"⟩,
          [mkGet "https://github.com/torvalds/linux/releases/download/v6.1/patch.gz"]) := by
  have h := claim_C3 (fun _ _ => FetchResult.ok 404 [] "")
    ⟨"GET", "/3lwqk/gh/torvalds/linux/releases/download/v6.1/patch.gz",
      "", [], ""⟩
    "torvalds" "linux" "v6.1" "patch.gz"
    (by decide) (by decide) (by decide) (by decide) (by decide) (by decide)
    (by decide)
  exact h.2.2.1 404 [] "" rfl (by decide)

/-- C5: whenever the upstream fetch resolves, the relayed response keeps
the upstream status and body, carries access-control-allow-origin: *
(whatever the upstream set), and every other upstream header is copied
unchanged. -/
theorem claim_C5 (net : Net) (k : Nat) (url : String) (req : InReq)
    (st : Nat) (hs : List (String × String)) (b : String)
    (h : net k url = FetchResult.ok st hs b) :
    ∃ resp : Response,
      (fetchWithCors net k url req).1 = Outcome.resp resp ∧
      resp.status = st ∧ resp.body = b ∧
      hLookup resp.headers "access-control-allow-origin" = some "*" ∧
      (∀ name : String, lowerName name ≠ "access-control-allow-origin" →
        hLookup resp.headers name = hLookup hs name) ∧
      (∀ p ∈ hs, lowerName p.1 ≠ "access-control-allow-origin" →
        p ∈ resp.headers) := by
  have hacao : lowerName "access-control-allow-origin"
      = "access-control-allow-origin" := rfl
  refine ⟨⟨st, headerSet hs "access-control-allow-origin" "*", b⟩,
    ?_, rfl, rfl, ?_, ?_, ?_⟩
  · rw [fetchWithCors_ok req h]
  · exact hLookup_headerSet_self hs _ "*"
  · intro name hname
    exact hLookup_headerSet_other hs _ "*" name (by rw [hacao]; exact hname)
  · intro p hp hp2
    exact mem_headerSet_of_ne _ "*" hp (by rw [hacao]; exact hp2)

/-- C5 witness: a concrete upstream response whose own
access-control-allow-origin header is overwritten to * while its
content-type header survives unchanged. -/
theorem claim_C5_witness :
    ∃ resp : Response,
      (fetchWithCors (fun _ _ => FetchResult.ok 200
          [("Content-Type", "text/plain"),
            ("Access-Control-Allow-Origin", "https://example.org")] "hello")
          0 "https://raw.githubusercontent.com/nginx/nginx/master/LICENSE"
          ⟨"GET", "/x", "", [], ""⟩).1 = Outcome.resp resp ∧
      resp.status = 200 ∧ resp.body = "hello" ∧
      hLookup resp.headers "access-control-allow-origin" = some "*" ∧
      (∀ name : String, lowerName name ≠ "access-control-allow-origin" →
        hLookup resp.headers name
          = hLookup [("Content-Type", "text/plain"),
              ("Access-Control-Allow-Origin", "https://example.org")] name) ∧
      (∀ p ∈ [(("Content-Type" : String), ("text/plain" : String)),
          ("Access-Control-Allow-Origin", "https://example.org")],
        lowerName p.1 ≠ "access-control-allow-origin" → p ∈ resp.headers) :=
  claim_C5 (fun _ _ => FetchResult.ok 200
      [("Content-Type", "text/plain"),
        ("Access-Control-Allow-Origin", "https://example.org")] "hello")
    0 "https://raw.githubusercontent.com/nginx/nginx/master/LICENSE"
    ⟨"GET", "/x", "", [], ""⟩ 200
    [("Content-Type", "text/plain"),
      ("Access-Control-Allow-Origin", "https://example.org")] "hello" rfl

/-- C7: a path that passes both prefix gates but matches none of the four
shapes is answered with status 400 and the usage-guide HTML (whose text
contains the literal substring "Usage Guide"), and no outbound fetch is
performed. -/
theorem claim_C7 (net : Net) (req : InReq) (p2 : List Char)
    (hpath : req.pathname.data = PREFIX_ACCESS.data ++ p2)
    (hgh : PREFIX_GH.data.isPrefixOf p2 = true)
    (h1 : matchRelease ⟨p2⟩ = none) (h2 : matchVersion ⟨p2⟩ = none)
    (h3 : matchBlob ⟨p2⟩ = none) (h4 : matchRaw ⟨p2⟩ = none) :
    handleRequest net req
        = (Outcome.resp ⟨400, [("Content-Type", "text/html")],
            generateUsageGuide⟩, []) ∧
    (∃ a b : String, generateUsageGuide = a ++ "Usage Guide" ++ b) := by
  constructor
  · rw [handleRequest_stripped hpath, if_pos hgh,
      handleGH_unmatched net req h1 h2 h3 h4]
  · exact ⟨"\n        <!DOCTYPE html>\n        <html lang=\"en\">\n        <head>\n            <meta charset=\"UTF-8\">\n            <meta name=\"viewport\" content=\"width=device-width, initial-scale=1.0\">\n            <title>",
      "</title>\n            <style>\n                body \x7b\n                    font-family: Arial, sans-serif;\n                    margin: 20px;\n                    padding: 20px;\n                    background-color: #f4f4f4;\n                    color: #333;\n                \x7d\n                h1 \x7b\n                    color: #007bff;\n                \x7d\n                pre \x7b\n                    background-color: #eee;\n                    padding: 10px;\n                    border-radius: 5px;\n                \x7d\n                code \x7b\n                    font-family: monospace;\n                    background-color: #f9f9f9;\n                    padding: 2px 4px;\n                    border-radius: 4px;\n                \x7d\n            </style>\n        </head>\n        <body>\n            <h1>Usage Guide</h1>\n            <p>Use the following endpoints to access GitHub releases:</p>\n            <h2>GitHub Releases</h2>\n            <pre>\n<code>https://dl09.net/3lwqk/gh/user/repo@version/file</code>\n            </pre>\n            <p>Examples:</p>\n            <pre>\n<code>https://dl09.net/3lwqk/gh/containerd/containerd@v1.6.4/cri-containerd-cni-1.6.4-linux-amd64.tar.gz</code>\n            </pre>\n            <pre>\n<code>https://dl09.net/3lwqk/gh/jquery/jquery@3.6.4/dist/jquery.min.js</code>\n            </pre>\n            <pre>\n<code>https://dl09.net/3lwqk/gh/nginx/nginx@1.2.6/CHANGELOG</code>\n            </pre>\n            <h2>Notes</h2>\n            <ul>\n                <li>Make sure to use valid user, repo, and version names.</li>\n                <li>Only alphanumeric characters, dashes, and underscores are allowed.</li>\n                <li>For the latest version of a repository, omit the version part.</li>\n            </ul>\n        </body>\n        </html>\n    ", rfl⟩

/-- C7 witness: the path /3lwqk/gh/onlyone passes both gates, matches no
shape, and receives the 400 usage guide with no outbound fetch. -/
theorem claim_C7_witness :
    handleRequest (fun _ _ => FetchResult.err)
        ⟨"GET", "/3lwqk/gh/onlyone", "", [], ""⟩
      = (Outcome.resp ⟨400, [("Content-Type", "text/html")],
          generateUsageGuide⟩, []) ∧
    (∃ a b : String, generateUsageGuide = a ++ "Usage Guide" ++ b) :=
  claim_C7 (fun _ _ => FetchResult.err)
    ⟨"GET", "/3lwqk/gh/onlyone", "", [], ""⟩ "/gh/onlyone".data
    rfl rfl rfl rfl rfl rfl

/-- C8: a path not starting with the access prefix, or starting with it
but whose remainder does not start with /gh/, is answered 404 with body
"404 Not Found"; a request reaches shape classification exactly when its
path starts with the plain string concatenation of the access prefix and
/gh/ (the gates are raw string-prefix tests). -/
theorem claim_C8 (net : Net) (req : InReq) :
    (PREFIX_ACCESS.data.isPrefixOf req.pathname.data = false →
      handleRequest net req
        = (Outcome.resp ⟨404, [], "404 Not Found"⟩, [])) ∧
    (∀ p2 : List Char, req.pathname.data = PREFIX_ACCESS.data ++ p2 →
      PREFIX_GH.data.isPrefixOf p2 = false →
      handleRequest net req
        = (Outcome.resp ⟨404, [], "404 Not Found"⟩, [])) ∧
    ((PREFIX_ACCESS ++ PREFIX_GH).data.isPrefixOf req.pathname.data = true ↔
      PREFIX_ACCESS.data.isPrefixOf req.pathname.data = true ∧
        PREFIX_GH.data.isPrefixOf
          (req.pathname.data.drop PREFIX_ACCESS.data.length) = true) ∧
    ((PREFIX_ACCESS ++ PREFIX_GH).data.isPrefixOf req.pathname.data = true →
      handleRequest net req
        = handleGitHubRequest net
            ⟨req.pathname.data.drop PREFIX_ACCESS.data.length⟩ req) := by
  refine ⟨?_, ?_, ?_, ?_⟩
  · exact fun h => handleRequest_no_access h
  · intro p2 h hgh
    rw [handleRequest_stripped h, if_neg]
    simp [hgh]
  · rw [String.data_append]
    exact isPrefixOf_append_iff PREFIX_ACCESS.data PREFIX_GH.data
      req.pathname.data
  · intro h
    rw [String.data_append] at h
    obtain ⟨h1, h2⟩ := (isPrefixOf_append_iff PREFIX_ACCESS.data
      PREFIX_GH.data req.pathname.data).mp h
    have h1' : ∃ t1, PREFIX_ACCESS.data ++ t1 = req.pathname.data :=
      List.isPrefixOf_iff_prefix.mp h1
    obtain ⟨p2, hp2⟩ := h1'
    rw [handleRequest_stripped hp2.symm]
    rw [← hp2, List.drop_left] at h2
    rw [if_pos h2, ← hp2, List.drop_left]

/-- C8 witness: /nope is answered 404, /3lwqk/zz/a is answered 404, and
/3lwqk/gh/a/b/raw/c/d reaches shape classification. -/
theorem claim_C8_witness :
    handleRequest (fun _ _ => FetchResult.err)
        ⟨"GET", "/nope", "", [], ""⟩
      = (Outcome.resp ⟨404, [], "404 Not Found"⟩, []) ∧
    handleRequest (fun _ _ => FetchResult.err)
        ⟨"GET", "/3lwqk/zz/a", "", [], ""⟩
      = (Outcome.resp ⟨404, [], "404 Not Found"⟩, []) ∧
    handleRequest (fun _ _ => FetchResult.err)
        ⟨"GET", "/3lwqk/gh/a/b/raw/c/d", "", [], ""⟩
      = handleGitHubRequest (fun _ _ => FetchResult.err)
          "/gh/a/b/raw/c/d" ⟨"GET", "/3lwqk/gh/a/b/raw/c/d", "", [], ""⟩ := by
  refine ⟨?_, ?_, ?_⟩
  · exact (claim_C8 (fun _ _ => FetchResult.err)
      ⟨"GET", "/nope", "", [], ""⟩).1 (by decide)
  · exact (claim_C8 (fun _ _ => FetchResult.err)
      ⟨"GET", "/3lwqk/zz/a", "", [], ""⟩).2.1 "/zz/a".data (by decide) (by decide)
  · exact (claim_C8 (fun _ _ => FetchResult.err)
      ⟨"GET", "/3lwqk/gh/a/b/raw/c/d", "", [], ""⟩).2.2.2 (by decide)

/-- C9: the routing decision depends only on the URL pathname — two
inbound requests with the same pathname are handled identically whatever
their method, query string, headers or body — and every outbound request
the proxy issues is a bare GET carrying no inbound headers and no body. -/
theorem claim_C9 (net : Net) (r1 r2 : InReq)
    (hpath : r1.pathname = r2.pathname) :
    handleRequest net r1 = handleRequest net r2 ∧
    (∀ o ∈ (handleRequest net r1).2,
      o.method = "GET" ∧ o.headers = [] ∧ o.body = "") := by
  have hd : r1.pathname.data = r2.pathname.data := by rw [hpath]
  constructor
  · by_cases h1 : PREFIX_ACCESS.data.isPrefixOf r1.pathname.data = true
    · have h1' : ∃ p2, PREFIX_ACCESS.data ++ p2 = r1.pathname.data :=
        List.isPrefixOf_iff_prefix.mp h1
      obtain ⟨p2, hp2⟩ := h1'
      have hp2' : r2.pathname.data = PREFIX_ACCESS.data ++ p2 := by
        rw [← hd]
        exact hp2.symm
      rw [handleRequest_stripped hp2.symm, handleRequest_stripped hp2']
      by_cases h2 : PREFIX_GH.data.isPrefixOf p2 = true
      · rw [if_pos h2, if_pos h2]
        exact handleGitHubRequest_req_irrel net ⟨p2⟩ r1 r2
      · rw [if_neg h2, if_neg h2]
    · have h2 : PREFIX_ACCESS.data.isPrefixOf r2.pathname.data = false := by
        rw [← hd]
        exact Bool.eq_false_iff.mpr h1
      rw [handleRequest_no_access (Bool.eq_false_iff.mpr h1),
        handleRequest_no_access h2]
  · exact handleRequest_log net r1

/-- C9 witness: a POST with a body, a query string and custom headers is
handled exactly like a bare GET on the same pathname, and its only
outbound request is a bare GET. -/
theorem claim_C9_witness :
    handleRequest (fun _ _ => FetchResult.ok 200 [] "B")
        ⟨"POST", "/3lwqk/gh/a/b/raw/c/d", "?x=1",
          [("Authorization", "Bearer s3cret")], "payload"⟩
      = handleRequest (fun _ _ => FetchResult.ok 200 [] "B")
          ⟨"GET", "/3lwqk/gh/a/b/raw/c/d", "", [], ""⟩ ∧
    (∀ o ∈ (handleRequest (fun _ _ => FetchResult.ok 200 [] "B")
        ⟨"POST", "/3lwqk/gh/a/b/raw/c/d", "?x=1",
          [("Authorization", "Bearer s3cret")], "payload"⟩).2,
      o.method = "GET" ∧ o.headers = [] ∧ o.body = "") :=
  claim_C9 (fun _ _ => FetchResult.ok 200 [] "B")
    ⟨"POST", "/3lwqk/gh/a/b/raw/c/d", "?x=1",
      [("Authorization", "Bearer s3cret")], "payload"⟩
    ⟨"GET", "/3lwqk/gh/a/b/raw/c/d", "", [], ""⟩ rfl

/-- C10: the character-class validator plays no role in routing — for
segments made of arbitrary non-slash characters (in particular ones the
validator rejects), each of the four shapes is routed exactly as for
well-formed segments. -/
theorem claim_C10 (net : Net) (req : InReq) :
    (∀ o r t f : String, o.data ≠ [] → '/' ∉ o.data → r.data ≠ [] →
      '/' ∉ r.data → t.data ≠ [] → '/' ∉ t.data → f.data.all dotOk = true →
      (isValidGitHubParameter o = false ∨ isValidGitHubParameter r = false ∨
        isValidGitHubParameter t = false) →
      handleGitHubRequest net
          ("/gh/" ++ o ++ "/" ++ r ++ "/releases/download/" ++ t ++ "/" ++ f) req
        = handleRelease net ⟨o, r, t, f⟩ req) ∧
    (∀ o r t f : String, o.data ≠ [] → '/' ∉ o.data → r.data ≠ [] →
      '/' ∉ r.data → t.data ≠ [] → '/' ∉ t.data → '@' ∉ t.data →
      f.data.all dotOk = true →
      matchRelease ("/gh/" ++ o ++ "/" ++ r ++ "@" ++ t ++ "/" ++ f) = none →
      (isValidGitHubParameter o = false ∨ isValidGitHubParameter r = false ∨
        isValidGitHubParameter t = false) →
      handleGitHubRequest net ("/gh/" ++ o ++ "/" ++ r ++ "@" ++ t ++ "/" ++ f) req
        = fetchWithCors net 0 (tagUrl ⟨o, r, t, f⟩) req) ∧
    (∀ o r t f : String, o.data ≠ [] → '/' ∉ o.data → r.data ≠ [] →
      '/' ∉ r.data → '@' ∉ r.data → t.data ≠ [] → '/' ∉ t.data →
      f.data.all dotOk = true →
      (isValidGitHubParameter o = false ∨ isValidGitHubParameter r = false ∨
        isValidGitHubParameter t = false) →
      handleGitHubRequest net ("/gh/" ++ o ++ "/" ++ r ++ "/blob/" ++ t ++ "/" ++ f) req
        = fetchWithCors net 0 (rawContentUrl ⟨o, r, t, f⟩) req) ∧
    (∀ o r t f : String, o.data ≠ [] → '/' ∉ o.data → r.data ≠ [] →
      '/' ∉ r.data → '@' ∉ r.data → t.data ≠ [] → '/' ∉ t.data →
      f.data.all dotOk = true →
      (isValidGitHubParameter o = false ∨ isValidGitHubParameter r = false ∨
        isValidGitHubParameter t = false) →
      handleGitHubRequest net ("/gh/" ++ o ++ "/" ++ r ++ "/raw/" ++ t ++ "/" ++ f) req
        = fetchWithCors net 0 (rawContentUrl ⟨o, r, t, f⟩) req) := by
  refine ⟨?_, ?_, ?_, ?_⟩
  · intro o r t f ho ho2 hr hr2 ht ht2 hf _
    have hm : matchRelease
        ("/gh/" ++ o ++ "/" ++ r ++ "/releases/download/" ++ t ++ "/" ++ f)
          = some ⟨o, r, t, f⟩ :=
      matchRelease_of_data (release_path_data o r t f) ho ho2 hr hr2 ht ht2 hf
    exact handleGH_release net req hm
  · intro o r t f ho ho2 hr hr2 ht ht2 hat hf hRel _
    have hm : matchVersion ("/gh/" ++ o ++ "/" ++ r ++ "@" ++ t ++ "/" ++ f)
        = some ⟨o, r, t, f⟩ :=
      matchVersion_of_data (version_path_data o r t f) ho ho2 hr hr2 ht ht2
        hat hf
    exact handleGH_version net req hRel hm
  · intro o r t f ho ho2 hr hr2 hat ht ht2 hf _
    have hm : matchBlob ("/gh/" ++ o ++ "/" ++ r ++ "/blob/" ++ t ++ "/" ++ f)
        = some ⟨o, r, t, f⟩ :=
      matchBlob_of_data (blob_path_data o r t f) ho ho2 hr hr2 ht ht2 hf
    have hV : matchVersion ("/gh/" ++ o ++ "/" ++ r ++ "/blob/" ++ t ++ "/" ++ f)
        = none :=
      matchVersion_none_of_no_at (parseTwo_blob_path o r t f ho ho2 hr hr2) hat
    exact handleGH_blob net req (matchRelease_none_of_blob hm) hV hm
  · intro o r t f ho ho2 hr hr2 hat ht ht2 hf _
    have hm : matchRaw ("/gh/" ++ o ++ "/" ++ r ++ "/raw/" ++ t ++ "/" ++ f)
        = some ⟨o, r, t, f⟩ :=
      matchRaw_of_data (raw_path_data o r t f) ho ho2 hr hr2 ht ht2 hf
    have hV : matchVersion ("/gh/" ++ o ++ "/" ++ r ++ "/raw/" ++ t ++ "/" ++ f)
        = none :=
      matchVersion_none_of_no_at (parseTwo_raw_path o r t f ho ho2 hr hr2) hat
    exact handleGH_raw net req (matchRelease_none_of_raw hm)
      hV (matchBlob_none_of_raw hm) hm

/-- C10 witness: segments containing a space and a percent sign are
rejected by the validator yet the blob shape routes exactly as a valid
one would. -/
theorem claim_C10_witness :
    isValidGitHubParameter "a%b" = false ∧
    isValidGitHubParameter "c d" = false ∧
    handleGitHubRequest (fun _ _ => FetchResult.ok 200 [] "B")
        "/gh/a%b/c d/blob/e/f" ⟨"GET", "/x", "", [], ""⟩
      = fetchWithCors (fun _ _ => FetchResult.ok 200 [] "B") 0
          "https://raw.githubusercontent.com/a%b/c d/e/f"
          ⟨"GET", "/x", "", [], ""⟩ := by
  refine ⟨by decide, by decide, ?_⟩
  exact (claim_C10 (fun _ _ => FetchResult.ok 200 [] "B")
      ⟨"GET", "/x", "", [], ""⟩).2.2.1 "a%b" "c d" "e" "f"
    (by decide) (by decide) (by decide) (by decide) (by decide) (by decide)
    (by decide) (by decide) (Or.inl (by decide))

/-- C1 counterexample: a network failure during the relay fetch of a
blob-shape request is not caught — the handler ends in a propagated
exception instead of a synthetic 500. -/
theorem claim_C1_counterexample :
    (handleGitHubRequest (fun _ _ => FetchResult.err) "/gh/a/b/blob/c/d"
        ⟨"GET", "/3lwqk/gh/a/b/blob/c/d", "", [], ""⟩).1
      = Outcome.thrown := rfl

/-- C1 as amended: network failures during the release-download probe or
its relay fetch are caught and converted to the synthetic 500
"Internal Server Error" (that branch never propagates a fault), while for
the short-version, blob and raw shapes a network failure during the
single relay fetch propagates as an unhandled fault. -/
theorem claim_C1 (net : Net) (path : String) (req : InReq) :
    (∀ m, matchRelease path = some m →
      (handleGitHubRequest net path req).1 ≠ Outcome.thrown ∧
      (net 0 (releaseUrl m) = FetchResult.err →
        (handleGitHubRequest net path req).1
          = Outcome.resp ⟨500, [], "Internal Server Error"⟩) ∧
      (∀ st hs b, net 0 (releaseUrl m) = FetchResult.ok st hs b →
        200 ≤ st ∧ st ≤ 299 → net 1 (releaseUrl m) = FetchResult.err →
        (handleGitHubRequest net path req).1
          = Outcome.resp ⟨500, [], "Internal Server Error"⟩)) ∧
    (∀ m, matchRelease path = none → matchVersion path = some m →
      net 0 (tagUrl m) = FetchResult.err →
      (handleGitHubRequest net path req).1 = Outcome.thrown) ∧
    (∀ m, matchRelease path = none → matchVersion path = none →
      matchBlob path = some m → net 0 (rawContentUrl m) = FetchResult.err →
      (handleGitHubRequest net path req).1 = Outcome.thrown) ∧
    (∀ m, matchRelease path = none → matchVersion path = none →
      matchBlob path = none → matchRaw path = some m →
      net 0 (rawContentUrl m) = FetchResult.err →
      (handleGitHubRequest net path req).1 = Outcome.thrown) := by
  refine ⟨?_, ?_, ?_, ?_⟩
  · intro m hm
    rw [handleGH_release net req hm]
    refine ⟨handleRelease_not_thrown net m req, ?_, ?_⟩
    · intro herr
      rw [handleRelease_probe_err req herr]
    · intro st hs b hok hst herr
      rw [handleRelease_relay_err req hok hst herr]
  · intro m hR hV herr
    rw [handleGH_version net req hR hV, fetchWithCors_err req herr]
  · intro m hR hV hB herr
    rw [handleGH_blob net req hR hV hB, fetchWithCors_err req herr]
  · intro m hR hV hB hW herr
    rw [handleGH_raw net req hR hV hB hW, fetchWithCors_err req herr]

/-- C1 witness: with a network that always fails, the release-download
shape ends in the caught synthetic 500 while the raw shape ends in a
propagated exception. -/
theorem claim_C1_witness :
    (handleGitHubRequest (fun _ _ => FetchResult.err)
        "/gh/u/v/releases/download/w/x" ⟨"GET", "/x", "", [], ""⟩).1
      = Outcome.resp ⟨500, [], "Internal Server Error"⟩ ∧
    (handleGitHubRequest (fun _ _ => FetchResult.err)
        "/gh/u/v/raw/w/x" ⟨"GET", "/x", "", [], ""⟩).1
      = Outcome.thrown := by
  constructor
  · exact ((claim_C1 (fun _ _ => FetchResult.err)
      "/gh/u/v/releases/download/w/x" ⟨"GET", "/x", "", [], ""⟩).1
      ⟨"u", "v", "w", "x"⟩ rfl).2.1 rfl
  · exact (claim_C1 (fun _ _ => FetchResult.err)
      "/gh/u/v/raw/w/x" ⟨"GET", "/x", "", [], ""⟩).2.2.2
      ⟨"u", "v", "w", "x"⟩ rfl rfl rfl rfl rfl

/-- C2 counterexample: one path matches both the release-download pattern
and the short-version pattern, so the four patterns are not pairwise
disjoint. -/
theorem claim_C2_counterexample :
    matchRelease "/gh/a/b@c/releases/download/d/e"
        = some ⟨"a", "b@c", "d", "e"⟩ ∧
    matchVersion "/gh/a/b@c/releases/download/d/e"
        = some ⟨"a", "b", "c", "releases/download/d/e"⟩ := ⟨rfl, rfl⟩

/-- C2 as amended: the release-download, blob and raw patterns are
pairwise disjoint, but the short-version pattern overlaps each of them
(a repo segment containing @ makes two patterns match), so the fixed
evaluation order is what resolves the ambiguity. -/
theorem claim_C2 :
    (∀ (path : String) (m : GHMatch), matchRelease path = some m →
      matchBlob path = none ∧ matchRaw path = none) ∧
    (∀ (path : String) (m : GHMatch), matchBlob path = some m →
      matchRaw path = none) :=
  ⟨fun _ _ h => ⟨matchBlob_none_of_release h, matchRaw_none_of_release h⟩,
    fun _ _ h => matchRaw_none_of_blob h⟩

/-- C2 witness: on a concrete release-download path the blob and raw
patterns fail, and on a concrete blob path the raw pattern fails. -/
theorem claim_C2_witness :
    matchBlob "/gh/x/y/releases/download/z/w" = none ∧
    matchRaw "/gh/x/y/releases/download/z/w" = none ∧
    matchRaw "/gh/x/y/blob/z/w" = none := by
  refine ⟨?_, ?_, ?_⟩
  · exact (claim_C2.1 "/gh/x/y/releases/download/z/w"
      ⟨"x", "y", "z", "w"⟩ rfl).1
  · exact (claim_C2.1 "/gh/x/y/releases/download/z/w"
      ⟨"x", "y", "z", "w"⟩ rfl).2
  · exact claim_C2.2 "/gh/x/y/blob/z/w" ⟨"x", "y", "z", "w"⟩ rfl

/-- C4 counterexample: a path of the short-version shape whose file part
begins with releases/download/ is routed to the release-download branch
instead: two fetches are performed, to the release URL rather than the
raw-refs-tags URL. -/
theorem claim_C4_counterexample :
    matchVersion "/gh/p/q@r/releases/download/s/t"
        = some ⟨"p", "q", "r", "releases/download/s/t"⟩ ∧
    tagUrl ⟨"p", "q", "r", "releases/download/s/t"⟩
        = "https://github.com/p/q/raw/refs/tags/r/releases/download/s/t" ∧
    (handleGitHubRequest (fun _ _ => FetchResult.ok 200 [] "")
        "/gh/p/q@r/releases/download/s/t" ⟨"GET", "/x", "", [], ""⟩).2
      = [mkGet "https://github.com/p/q@r/releases/download/s/t",
          mkGet "https://github.com/p/q@r/releases/download/s/t"] :=
  ⟨rfl, rfl, rfl⟩

/-- C4 as amended: every path matching the short-version pattern that
does not also match the release-download pattern is forwarded directly in
a single fetch, with no probe, to
https://github.com/owner/repo/raw/refs/tags/tag/file. -/
theorem claim_C4 (net : Net) (req : InReq) (path : String) (m : GHMatch)
    (hV : matchVersion path = some m) (hR : matchRelease path = none) :
    tagUrl m = "https://github.com/" ++ m.user ++ "/" ++ m.repo ++
        "/raw/refs/tags/" ++ m.version ++ "/" ++ m.filePath ∧
    handleGitHubRequest net path req = fetchWithCors net 0 (tagUrl m) req ∧
    (handleGitHubRequest net path req).2 = [mkGet (tagUrl m)] := by
  refine ⟨rfl, handleGH_version net req hR hV, ?_⟩
  rw [handleGH_version net req hR hV, fetchWithCors_log]

/-- C4 witness: the jquery example is forwarded directly, by one single
fetch, to the raw-refs-tags URL. -/
theorem claim_C4_witness :
    handleGitHubRequest (fun _ _ => FetchResult.ok 200 [] "B")
        "/gh/jquery/jquery@3.6.4/dist/jquery.min.js" ⟨"GET", "/x", "", [], ""⟩
      = fetchWithCors (fun _ _ => FetchResult.ok 200 [] "B") 0
          "https://github.com/jquery/jquery/raw/refs/tags/3.6.4/dist/jquery.min.js"
          ⟨"GET", "/x", "", [], ""⟩ ∧
    (handleGitHubRequest (fun _ _ => FetchResult.ok 200 [] "B")
        "/gh/jquery/jquery@3.6.4/dist/jquery.min.js"
        ⟨"GET", "/x", "", [], ""⟩).2
      = [mkGet "https://github.com/jquery/jquery/raw/refs/tags/3.6.4/dist/jquery.min.js"] := by
  have h := claim_C4 (fun _ _ => FetchResult.ok 200 [] "B")
    ⟨"GET", "/x", "", [], ""⟩ "/gh/jquery/jquery@3.6.4/dist/jquery.min.js"
    ⟨"jquery", "jquery", "3.6.4", "dist/jquery.min.js"⟩ rfl rfl
  exact ⟨h.2.1, h.2.2⟩

/-- C6 counterexample: for owner a, repo b@c, ref d, file e the blob and
raw shapes are hijacked by the short-version pattern and routed to two
different github.com URLs — neither the common
raw.githubusercontent.com target nor identical handling. -/
theorem claim_C6_counterexample :
    (handleGitHubRequest (fun _ _ => FetchResult.ok 200 [] "B")
        "/gh/a/b@c/blob/d/e" ⟨"GET", "/x", "", [], ""⟩).2
      = [mkGet "https://github.com/a/b/raw/refs/tags/c/blob/d/e"] ∧
    (handleGitHubRequest (fun _ _ => FetchResult.ok 200 [] "B")
        "/gh/a/b@c/raw/d/e" ⟨"GET", "/x", "", [], ""⟩).2
      = [mkGet "https://github.com/a/b/raw/refs/tags/c/raw/d/e"] ∧
    (handleGitHubRequest (fun _ _ => FetchResult.ok 200 [] "B")
        "/gh/a/b@c/blob/d/e" ⟨"GET", "/x", "", [], ""⟩).2
      ≠ (handleGitHubRequest (fun _ _ => FetchResult.ok 200 [] "B")
          "/gh/a/b@c/raw/d/e" ⟨"GET", "/x", "", [], ""⟩).2 :=
  ⟨rfl, rfl, by decide⟩

/-- C6 as amended: for every owner, repo, ref and file whose repo segment
contains no @, the blob and raw shapes build the identical upstream URL
https://raw.githubusercontent.com/owner/repo/ref/file and are handled
identically by a direct forward with no probe. -/
theorem claim_C6 (net : Net) (req : InReq) (o r t f : String)
    (ho : o.data ≠ []) (ho2 : '/' ∉ o.data)
    (hr : r.data ≠ []) (hr2 : '/' ∉ r.data) (hat : '@' ∉ r.data)
    (ht : t.data ≠ []) (ht2 : '/' ∉ t.data)
    (hf : f.data.all dotOk = true) :
    rawContentUrl ⟨o, r, t, f⟩
        = "https://raw.githubusercontent.com/" ++ o ++ "/" ++ r ++ "/"
            ++ t ++ "/" ++ f ∧
    handleGitHubRequest net ("/gh/" ++ o ++ "/" ++ r ++ "/blob/" ++ t ++ "/" ++ f) req
        = fetchWithCors net 0 (rawContentUrl ⟨o, r, t, f⟩) req ∧
    handleGitHubRequest net ("/gh/" ++ o ++ "/" ++ r ++ "/raw/" ++ t ++ "/" ++ f) req
        = fetchWithCors net 0 (rawContentUrl ⟨o, r, t, f⟩) req ∧
    handleGitHubRequest net ("/gh/" ++ o ++ "/" ++ r ++ "/blob/" ++ t ++ "/" ++ f) req
        = handleGitHubRequest net ("/gh/" ++ o ++ "/" ++ r ++ "/raw/" ++ t ++ "/" ++ f) req := by
  have hB : matchBlob ("/gh/" ++ o ++ "/" ++ r ++ "/blob/" ++ t ++ "/" ++ f)
      = some ⟨o, r, t, f⟩ :=
    matchBlob_of_data (blob_path_data o r t f) ho ho2 hr hr2 ht ht2 hf
  have hW : matchRaw ("/gh/" ++ o ++ "/" ++ r ++ "/raw/" ++ t ++ "/" ++ f)
      = some ⟨o, r, t, f⟩ :=
    matchRaw_of_data (raw_path_data o r t f) ho ho2 hr hr2 ht ht2 hf
  have hV1 : matchVersion ("/gh/" ++ o ++ "/" ++ r ++ "/blob/" ++ t ++ "/" ++ f)
      = none :=
    matchVersion_none_of_no_at (parseTwo_blob_path o r t f ho ho2 hr hr2) hat
  have hV2 : matchVersion ("/gh/" ++ o ++ "/" ++ r ++ "/raw/" ++ t ++ "/" ++ f)
      = none :=
    matchVersion_none_of_no_at (parseTwo_raw_path o r t f ho ho2 hr hr2) hat
  have e1 := handleGH_blob net req (matchRelease_none_of_blob hB) hV1 hB
  have e2 := handleGH_raw net req (matchRelease_none_of_raw hW) hV2
    (matchBlob_none_of_raw hW) hW
  exact ⟨rfl, e1, e2, e1.trans e2.symm⟩

/-- C6 witness: the nginx CHANGELOG example — blob and raw paths are
handled identically and hit the same raw.githubusercontent.com URL. -/
theorem claim_C6_witness :
    handleGitHubRequest (fun _ _ => FetchResult.ok 200 [] "B")
        "/gh/nginx/nginx/blob/master/CHANGELOG" ⟨"GET", "/x", "", [], ""⟩
      = handleGitHubRequest (fun _ _ => FetchResult.ok 200 [] "B")
          "/gh/nginx/nginx/raw/master/CHANGELOG" ⟨"GET", "/x", "", [], ""⟩ ∧
    handleGitHubRequest (fun _ _ => FetchResult.ok 200 [] "B")
        "/gh/nginx/nginx/blob/master/CHANGELOG" ⟨"GET", "/x", "", [], ""⟩
      = fetchWithCors (fun _ _ => FetchResult.ok 200 [] "B") 0
          "https://raw.githubusercontent.com/nginx/nginx/master/CHANGELOG"
          ⟨"GET", "/x", "", [], ""⟩ := by
  have h := claim_C6 (fun _ _ => FetchResult.ok 200 [] "B")
    ⟨"GET", "/x", "", [], ""⟩ "nginx" "nginx" "master" "CHANGELOG"
    (by decide) (by decide) (by decide) (by decide) (by decide) (by decide)
    (by decide) (by decide)
  exact ⟨h.2.2.2, h.2.1⟩
